import Mathlib

/-!
# Verification of `fastapi_structlog` against its specification

Shallow embedding of the parts of `fastapi_structlog` (redb0/fastapi-logger)
needed to settle the frozen claims: the logger configuration pipeline
(`log.py`), settings validation (`settings.py`), the Sentry initialization
(`sentry/initialization.py`), the database log handler
(`db_handler/handler.py`) and the helpers in `utils.py` and
`middleware/access_log.py`.

Python values that matter to the claims are embedded as plain Lean data:
optional arguments become `Option`, exceptions become `Except String`,
dictionaries become association lists, and handler objects are abstracted
by a type parameter (their identity is all the claims depend on).
-/

namespace FastapiStructlog

/-! ## `utils.annotated_last`

```python
def annotated_last(sequence):
    it = iter(sequence)
    try:
        previous = next(it)
    except StopIteration:
        return
    for current in it:
        yield previous, False
        previous = current
    yield previous, True
```
-/

/-- The loop of `annotated_last` once the first element `previous` has been
drawn from the iterator: each further element flushes the held one with
flag `False`; exhaustion flushes it with flag `True`. -/
def annotatedLastGo {α : Type} (previous : α) : List α → List (α × Bool)
  | [] => [(previous, true)]
  | current :: rest => (previous, false) :: annotatedLastGo current rest

/-- Python `utils.annotated_last`: pairs each element with a flag marking the last
one; an empty sequence yields nothing (the `StopIteration` branch). -/
def annotated_last {α : Type} : List α → List (α × Bool)
  | [] => []
  | x :: rest => annotatedLastGo x rest

/-! ## `middleware/access_log.AccessLogAtoms.__getitem__`

```python
def __getitem__(self, key: str) -> Any:
    try:
        if key.startswith('{'):
            return super().__getitem__(key.lower())
        return super().__getitem__(key)
    except KeyError:
        return '-'
```

The atoms object is a `dict` subclass; we embed the stored mapping as an
association list from keys to an abstract value type, with a string
injected for the `'-'` default. -/

/-- A value stored in (or returned from) the atoms mapping: either an
arbitrary stored payload or a string (the `'-'` fallback is a string). -/
inductive AtomValue (V : Type) where
  | payload (v : V)
  | str (s : String)
  deriving DecidableEq

/-- Python `str.startswith`, on the underlying character lists. -/
def pyStartsWith (s pre : String) : Bool :=
  pre.data.isPrefixOf s.data

/-- Python `str.lower`, on the underlying character list (ASCII-range
lowercasing). -/
def pyToLower (s : String) : String :=
  String.mk (s.data.map Char.toLower)

/-- The key normalization done before the lookup: keys starting with
`'{'` are lowercased. -/
def atomsNormKey (key : String) : String :=
  if pyStartsWith key "\x7b" then pyToLower key else key

/-- Python `dict.__getitem__` (the `super().__getitem__` call): raises `KeyError`
when the key is absent.  `Except Unit` stands for the raised `KeyError`. -/
def dictGetItem {V : Type} (m : List (String × AtomValue V)) (key : String) :
    Except Unit (AtomValue V) :=
  match m.lookup key with
  | some v => .ok v
  | none => .error ()

/-- Python `AccessLogAtoms.__getitem__`: normalizes the key, looks it up, and
turns a `KeyError` into the string `'-'`. -/
def accessLogAtomsGetItem {V : Type} (m : List (String × AtomValue V))
    (key : String) : AtomValue V :=
  match dictGetItem m (atomsNormKey key) with
  | .ok v => v
  | .error _ => .str "-"

/-! ## `log.handle_exception` / `log.set_handle_exception`

```python
def handle_exception(exc_type, exc_value, exc_traceback):
    log = structlog.get_logger()
    if issubclass(exc_type, KeyboardInterrupt):
        sys.__excepthook__(exc_type, exc_value, exc_traceback)
        return
    log.error('Uncaught exception', exc_info=(exc_type, exc_value, exc_traceback))

def set_handle_exception():
    sys.excepthook = handle_exception
```
-/

/-- Observable effect of an uncaught-exception hook run. -/
inductive ExcHookAction where
  /-- Python `sys.__excepthook__` was invoked (and nothing was logged). -/
  | origExcepthook
  /-- Python `log.error(msg, exc_info=...)` was emitted. -/
  | logError (msg : String) (withExcInfo : Bool)
  deriving DecidableEq

/-- The part of an exception type the hook inspects: whether it is a
subclass of `KeyboardInterrupt`. -/
structure ExcType where
  isKeyboardInterruptSubclass : Bool
  deriving DecidableEq

/-- Python `log.handle_exception` as a function from the inspected exception type
to the action it performs. -/
def handle_exception (excType : ExcType) : ExcHookAction :=
  if excType.isKeyboardInterruptSubclass then
    .origExcepthook
  else
    .logError "Uncaught exception" true

/-! ## `log.configure_processor`

```python
def configure_processor(*, json_logs=True, event_key='event', traceback_as_str=True):
    shared_processors = [
        structlog.contextvars.merge_contextvars,
        structlog.stdlib.add_logger_name,
        structlog.stdlib.add_log_level,
        sanitize_authorization_token,
        add_app_context(),
        structlog.stdlib.PositionalArgumentsFormatter(),
        structlog.stdlib.ExtraAdder(),
        drop_color_message_key,
        structlog.processors.TimeStamper(fmt='iso'),
        structlog.processors.StackInfoRenderer(),
        structlog.processors.EventRenamer(to=event_key),
    ]
    if find_structlog_sentry:
        shared_processors.insert(3, SentryProcessor(event_level=logging.ERROR))
    if json_logs and not traceback_as_str:
        shared_processors.append(structlog.processors.dict_tracebacks)
    if json_logs and traceback_as_str:
        shared_processors.append(structlog.processors.format_exc_info)
    return shared_processors
```

`find_structlog_sentry` is a module-level constant set by the
`import structlog_sentry` try/except; it is a parameter of the embedding.
`logging.ERROR == 40`. -/

/-- A structlog processor, identified by what `configure_processor` puts
in the chain (constructor arguments record the configuration each entry
is built with). -/
inductive Processor where
  | merge_contextvars
  | add_logger_name
  | add_log_level
  | sanitize_authorization_token
  | add_app_context
  | positionalArgumentsFormatter
  | extraAdder
  | drop_color_message_key
  | timeStamper (fmt : String)
  | stackInfoRenderer
  | eventRenamer (toKey : String)
  | sentryProcessor (event_level : Nat)
  | dict_tracebacks
  | format_exc_info
  deriving DecidableEq

/-- Python `logging.ERROR`. -/
def loggingERROR : Nat := 40

/-- Python `log.configure_processor`.  `find_structlog_sentry` reflects whether
`structlog_sentry` was importable. -/
def configure_processor (find_structlog_sentry : Bool)
    (json_logs : Bool) (event_key : String) (traceback_as_str : Bool) :
    List Processor :=
  let shared_processors : List Processor := [
    .merge_contextvars,
    .add_logger_name,
    .add_log_level,
    .sanitize_authorization_token,
    .add_app_context,
    .positionalArgumentsFormatter,
    .extraAdder,
    .drop_color_message_key,
    .timeStamper "iso",
    .stackInfoRenderer,
    .eventRenamer event_key,
  ]
  let shared_processors :=
    if find_structlog_sentry then
      shared_processors.insertIdx 3 (.sentryProcessor loggingERROR)
    else shared_processors
  let shared_processors :=
    if json_logs && !traceback_as_str then
      shared_processors ++ [.dict_tracebacks]
    else shared_processors
  let shared_processors :=
    if json_logs && traceback_as_str then
      shared_processors ++ [.format_exc_info]
    else shared_processors
  shared_processors

/-- The installed `sys.excepthook`: either the interpreter default or the
hook installed by `set_handle_exception`. -/
inductive SysExcepthook where
  | interpreterDefault
  | handleExceptionHook
  deriving DecidableEq

/-- Python `log.set_handle_exception`: overwrites `sys.excepthook`. -/
def set_handle_exception (_old : SysExcepthook) : SysExcepthook :=
  .handleExceptionHook

/-- What the interpreter does with an uncaught exception, given the
installed hook. -/
def uncaughtExceptionAction (hook : SysExcepthook) (excType : ExcType) :
    ExcHookAction :=
  match hook with
  | .interpreterDefault => .origExcepthook
  | .handleExceptionHook => handle_exception excType

/-! ## `sentry/initialization.init_sentry`

```python
def init_sentry(*, env_prefix=None, release=None, app_slug=None, version=None,
                service_integration=None):
    settings_ = SentrySettings(_env_prefix=env_prefix)
    if settings_.dsn:
        setup_sentry(settings_, release=release or f'{app_slug}@{version}',
                     service_integration=service_integration)
    else:
        logger = logging.getLogger('init_sentry')
        logger.warning('\x1b[33;20mSentry is not configured! Missing DSN!\x1b[0m')
```

`setup_sentry` ends in `sentry_sdk.init(dsn=..., release=release, ...)`.
`SentrySettings.dsn` is `AnyHttpUrl | None`; a pydantic `Url` object is
always truthy, so `if settings_.dsn:` tests presence.  `release or ...`
is Python `or`: the right operand is used when `release` is `None` or
the empty string.  `f'{app_slug}'` renders `None` as the string `"None"`. -/

/-- The field of the loaded `SentrySettings` that `init_sentry` branches
on (the Url is kept as its string form). -/
structure SentrySettings where
  dsn : Option String

/-- Observable effect of `init_sentry`. -/
inductive SentryAction where
  /-- Python `sentry_sdk.init` was reached (via `setup_sentry`) with this
  `release` argument. -/
  | initCalled (release : String)
  /-- Python `logging.getLogger(logger).warning(msg)` was emitted and no
  initialization happened. -/
  | warned (logger : String) (msg : String)
  deriving DecidableEq

/-- Python `x or y` for `x` an optional string: `y` when `x` is `None` or
empty (falsy), otherwise `x`. -/
def pyOrStr (x : Option String) (y : String) : String :=
  match x with
  | none => y
  | some s => if s = "" then y else s

/-- Python f-string interpolation of an optional string
(`None` renders as `"None"`). -/
def pyFormatOpt (x : Option String) : String :=
  match x with
  | none => "None"
  | some s => s

/-- Python `sentry/initialization.init_sentry` (its branch on the DSN and the
release it forwards to `sentry_sdk.init`). -/
def init_sentry (settings : SentrySettings)
    (release app_slug version : Option String) : SentryAction :=
  match settings.dsn with
  | some _ =>
      .initCalled
        (pyOrStr release (pyFormatOpt app_slug ++ "@" ++ pyFormatOpt version))
  | none =>
      .warned "init_sentry"
        "\x1b[33;20mSentry is not configured! Missing DSN!\x1b[0m"

/-! ## `log.DatabaseHandlerFactory.create_handler` and `setup_logger`

```python
def create_handler(self, model=None, db_url=None, **_):
    if model is None:
        msg = 'The model argument is required when logging into a database'
        raise ValueError(msg)
    if db_url is None:
        msg = 'The session_maker argument is required when logging into a database'
        raise ValueError(msg)
    return DatabaseHandler(db_url=db_url, model=model)
```

`setup_logger` (`__init__.py`) registers handlers on a
`LoggerConfigurator` before calling `setup()`:

```python
configurator.add_base_handler()                     # always: CONSOLE
if settings_.filename: ... add_handler(LogType.FILE, ...)
if settings_.syslog.host: ... add_handler(LogType.SYSLOG, ...)
if db_url and model: ... add_handler(LogType.INTERNAL,
    DatabaseHandlerFactory().create(model=model, db_url=db_url, ...))
```
-/

/-- Type of logging (`settings.LogType`), in declaration order. -/
inductive LogType where
  | CONSOLE
  | INTERNAL
  | SYSLOG
  | FILE
  deriving DecidableEq

/-- The payload of a created `DatabaseHandler`: the connection url and
the row model it was constructed from.  `M` abstracts the SQLModel
subclass, `U` the url. -/
structure DatabaseHandler (M U : Type) where
  db_url : U
  model : M
  deriving DecidableEq

/-- Python `DatabaseHandlerFactory.create_handler`: `ValueError` (as
`Except.error` with the message) when `model` or `db_url` is missing. -/
def create_handler {M U : Type} (model : Option M) (db_url : Option U) :
    Except String (DatabaseHandler M U) :=
  match model with
  | none => .error "The model argument is required when logging into a database"
  | some m =>
    match db_url with
    | none =>
        .error "The session_maker argument is required when logging into a database"
    | some u => .ok { db_url := u, model := m }

/-- A handler registered by `setup_logger` on the configurator, keeping
only what the claims inspect. -/
inductive RegisteredHandler (M : Type) where
  | console
  | file (filename : String)
  | syslog (host : String) (port : Nat)
  | database (handler : DatabaseHandler M String)
  deriving DecidableEq

/-- Python truthiness of an optional string (`None` and `''` are falsy). -/
def pyTruthyOptStr (x : Option String) : Bool :=
  match x with
  | none => false
  | some s => !(s = "")

/-- The non-database part of the registration phase of `setup_logger`:
the base console handler (always), the `FILE` handler when
`settings_.filename` is truthy (a `Path` object: truthy whenever
present), the `SYSLOG` handler when `settings_.syslog.host` is truthy
(a string: non-empty). -/
def setupRegisterBase {M : Type} (filename : Option String)
    (syslogHost : Option String) (syslogPort : Nat) :
    List (LogType × RegisteredHandler M) :=
  [(LogType.CONSOLE, RegisteredHandler.console (M := M))] ++
    (match filename with
     | some f => [(LogType.FILE, .file f)]
     | none => []) ++
    (if pyTruthyOptStr syslogHost then
      [(LogType.SYSLOG, .syslog (syslogHost.getD "") syslogPort)]
     else [])

/-- The handler-registration phase of `setup_logger`: the
`(LogType, handler)` pairs added to the configurator, in registration
order.  `db_url` is a string (truthiness is non-emptiness); `model` is
a class object (truthy whenever present).  The `INTERNAL` handler is
registered behind `if db_url and model:`, and errors raised by
`create_handler` propagate. -/
def setupLoggerRegister {M : Type} (filename : Option String)
    (syslogHost : Option String) (syslogPort : Nat)
    (db_url : Option String) (model : Option M) :
    Except String (List (LogType × RegisteredHandler M)) :=
  if pyTruthyOptStr db_url && model.isSome then
    (create_handler model db_url).map
      (fun h => setupRegisterBase filename syslogHost syslogPort ++
        [(LogType.INTERNAL, .database h)])
  else
    .ok (setupRegisterBase filename syslogHost syslogPort)

/-! ## `settings.LogSettings._create_methods` / `_create_types`

```python
@field_validator('methods', mode='before')
@classmethod
def _create_methods(cls, value):
    if isinstance(value, str):
        return [HTTPMethod(i.strip().lower()) for i in value.strip('[]').split(',')]
    return [HTTPMethod(i.strip().lower()) if isinstance(i, str) else i for i in value]
```

and identically for `types` with `LogType`.  `str.strip(chars)` removes
characters of `chars` from both ends; `str.strip()` removes whitespace
(modelled for the ASCII range); `EnumClass(x)` raises `ValueError`
(surfacing as a pydantic validation error) when no member has value `x`.
-/

/-- HTTP methods (`settings.HTTPMethod`). -/
inductive HTTPMethod where
  | GET
  | DELETE
  | POST
  | PUT
  | PATCH
  | OPTIONS
  | HEAD
  deriving DecidableEq

/-- Python `HTTPMethod(value)`: the member whose value is the given string. -/
def HTTPMethod.ofValue : String → Option HTTPMethod
  | "get" => some .GET
  | "delete" => some .DELETE
  | "post" => some .POST
  | "put" => some .PUT
  | "patch" => some .PATCH
  | "options" => some .OPTIONS
  | "head" => some .HEAD
  | _ => none

/-- Python `LogType(value)`: the member whose value is the given string. -/
def LogType.ofValue : String → Option LogType
  | "console" => some .CONSOLE
  | "internal" => some .INTERNAL
  | "syslog" => some .SYSLOG
  | "file" => some .FILE
  | _ => none

/-- Python `str.strip(chars)`: drop from both ends every character that
occurs in `chars`. -/
def pyStripChars (s : String) (chars : List Char) : String :=
  let l := s.toList.dropWhile (· ∈ chars)
  String.mk ((l.reverse.dropWhile (· ∈ chars)).reverse)

/-- Python `str.strip()` (no argument): drop whitespace from both ends
(ASCII whitespace in this embedding). -/
def pyStripWs (s : String) : String :=
  let l := s.toList.dropWhile Char.isWhitespace
  String.mk ((l.reverse.dropWhile Char.isWhitespace).reverse)

/-- An element of the list form of the validator input: a raw string or
an already-converted enum member. -/
inductive StrOr (E : Type) where
  | str (s : String)
  | enum (e : E)
  deriving DecidableEq

/-- The `value` argument of the validators. -/
inductive ValidatorInput (E : Type) where
  | str (s : String)
  | list (l : List (StrOr E))
  deriving DecidableEq

/-- Python `EnumClass(x)` inside the comprehension: `ValueError` (with the
enum's message) when `x` names no member. -/
def enumCall {E : Type} (enumName : String) (ofValue : String → Option E)
    (x : String) : Except String E :=
  match ofValue x with
  | some e => .ok e
  | none => .error ("'" ++ x ++ "' is not a valid " ++ enumName)

/-- The common body of `_create_methods` / `_create_types`, parameterized
by the enum's name and value lookup. -/
def createEnumList {E : Type} (enumName : String)
    (ofValue : String → Option E) :
    ValidatorInput E → Except String (List E)
  | .str value =>
      ((pyStripChars value ['[', ']']).splitOn ",").mapM
        (fun i => enumCall enumName ofValue (pyToLower (pyStripWs i)))
  | .list value =>
      value.mapM (fun i =>
        match i with
        | .str s => enumCall enumName ofValue (pyToLower (pyStripWs s))
        | .enum e => .ok e)

/-- Python `LogSettings._create_methods`. -/
def LogSettings._create_methods :
    ValidatorInput HTTPMethod → Except String (List HTTPMethod) :=
  createEnumList "HTTPMethod" HTTPMethod.ofValue

/-- Python `LogSettings._create_types`. -/
def LogSettings._create_types :
    ValidatorInput LogType → Except String (List LogType) :=
  createEnumList "LogType" LogType.ofValue

/-! ## `log.LoggerConfigurator.setup`

```python
_queue = SimpleQueue[logging.LogRecord]()
...
def setup(self):
    configure_structlog(self.settings.logger, self.processors)
    root_logger = logging.getLogger()
    handlers = []
    for type_ in LogType:
        if type_ in self.settings.types:
            handler_ = self.handlers.get(type_)
            if not handler_:
                msg = f'The handler for {type_.value} not registered'
                raise ValueError(msg)
            if type_ is LogType.CONSOLE:
                root_logger.addHandler(handler_)
            else:
                handlers.append(handler_)
    if handlers:
        queue_handler = QueueHandler(_queue)
        root_logger.addHandler(queue_handler)
    root_logger.setLevel(...)
    for _log in logging.root.manager.loggerDict:
        logging.getLogger(_log).handlers.clear()
    set_handle_exception()
    if handlers:
        return logging.handlers.QueueListener(_queue, *handlers)
    return None
```

The embedding records the handlers attached to the root logger and the
returned listener; `configure_structlog`, the level assignment and the
per-logger handler clearing do not bear on any claim and are not part of
the recorded state.  Handler objects are abstracted by a type parameter
`H`; queues are identified by a `Nat` so that sharing of the module-level
`_queue` is expressible. -/

/-- Identity of a `SimpleQueue`. -/
def QueueRef : Type := Nat

instance : DecidableEq QueueRef := instDecidableEqNat

/-- The module-level `_queue` of `log.py`. -/
def _queue : QueueRef := (0 : Nat)

/-- Python `LogType.value` (the `str` value of the enum member). -/
def LogType.value : LogType → String
  | .CONSOLE => "console"
  | .INTERNAL => "internal"
  | .SYSLOG => "syslog"
  | .FILE => "file"

/-- Iteration order of `for type_ in LogType` (declaration order). -/
def logTypeMembers : List LogType := [.CONSOLE, .INTERNAL, .SYSLOG, .FILE]

/-- An entry of the root logger's handler list after `setup`: a handler
added directly, or the `QueueHandler` enqueuing to a queue. -/
inductive RootHandler (H : Type) where
  | direct (h : H)
  | queueHandler (q : QueueRef)
  deriving DecidableEq

/-- A `logging.handlers.QueueListener(queue, *handlers)`. -/
structure QueueListener (H : Type) where
  queue : QueueRef
  handlers : List H
  deriving DecidableEq

/-- The observable outcome of `LoggerConfigurator.setup`. -/
structure SetupResult (H : Type) where
  /-- Handlers attached to the root logger, in attachment order. -/
  rootHandlers : List (RootHandler H)
  /-- The returned `QueueListener` (or `None`). -/
  listener : Option (QueueListener H)
  deriving DecidableEq

/-- The `for type_ in LogType` loop of `setup`: accumulates the handlers
attached directly to the root logger and the ones destined for the
listener, raising when a configured type has no registered handler. -/
def setupLoop {H : Type} (types : List LogType) (registered : LogType → Option H) :
    List LogType → List (RootHandler H) → List H →
    Except String (List (RootHandler H) × List H)
  | [], root, hs => .ok (root, hs)
  | t :: ts, root, hs =>
    if t ∈ types then
      match registered t with
      | none => .error ("The handler for " ++ t.value ++ " not registered")
      | some h =>
        if t = .CONSOLE then
          setupLoop types registered ts (root ++ [.direct h]) hs
        else
          setupLoop types registered ts root (hs ++ [h])
    else
      setupLoop types registered ts root hs

/-- Python `LoggerConfigurator.setup`, as a function of the configured
`settings.types` and of the registered handler map `self.handlers`. -/
def setup {H : Type} (types : List LogType) (registered : LogType → Option H) :
    Except String (SetupResult H) :=
  match setupLoop types registered logTypeMembers [] [] with
  | .error e => .error e
  | .ok (root, hs) =>
    if hs.isEmpty then
      .ok { rootHandlers := root, listener := none }
    else
      .ok { rootHandlers := root ++ [.queueHandler _queue],
            listener := some { queue := _queue, handlers := hs } }

/-! ## `utils.find_by_value` and `db_handler.handler.DatabaseHandler.construct_message`

```python
def find_by_value(dict_, key, *, replace=None):
    pattern_re = re.compile(key)
    if hasattr(dict_, 'items'):
        for k, v in dict_.items():
            if isinstance(v, str) and bool(re.search(pattern_re, v)):
                if replace:
                    dict_[k] = re.sub(pattern_re, replace, v)
                yield v
            if isinstance(v, dict):
                for result in find_by_value(v, key, replace=replace):
                    yield result
            elif isinstance(v, list):
                for d in v:
                    for result in find_by_value(d, key, replace=replace):
                        yield result
```

`construct_message` drives it with the fixed pattern
`(?P<param>password=)(?P<val>.*?)(?P<end>(?:\s|&|$))` and replacement
`\g<param>*****\g<end>`.  For this pattern the regex matches at a
position exactly when the literal `password=` starts there: `.*?` is the
shortest run of non-terminator characters (`\n` cannot be consumed by
`.`, but `\n` is itself in `\s`, hence a terminator), and the match ends
by consuming the first following whitespace-or-`&` character or the end
of the string.  `re.sub` rewrites the non-overlapping matches from left
to right, resuming after each consumed match.  `\s` is modelled over the
ASCII range. -/

/-- A Python value as stored in the row dictionary built by
`construct_message`: a string, a dict, a list, `None`, or an opaque
non-container (number, datetime, ...). -/
inductive PyValue where
  | str (s : String)
  | dict (entries : List (String × PyValue))
  | list (elems : List PyValue)
  | none
  | other (tag : Nat)

/-- Characters matched by `\s` (ASCII range). -/
def isReWhitespace (c : Char) : Bool :=
  c = ' ' || c = '\t' || c = '\n' || c = '\r' || c = '\x0b' || c = '\x0c'

/-- A character ending the `val` group: whitespace or `&`. -/
def isPwTerm (c : Char) : Bool :=
  isReWhitespace c || c = '&'

/-- The literal part of the password pattern. -/
def pwKey : List Char := "password=".toList

/-- The replacement emitted for one match (the consumed terminator, if
any, is re-emitted separately by the scanner). -/
def pwMask : List Char := "password=*****".toList

mutual

/-- The left-to-right scan of `re.sub` for the password pattern: at each
position, a match starts iff `password=` is a literal prefix there; on a
match the masked text is emitted and scanning resumes after the consumed
match. -/
def pwSubAux : List Char → List Char
  | [] => []
  | c :: rest =>
    if pwKey.isPrefixOf (c :: rest) then
      pwMask ++ pwConsume ((c :: rest).drop 9)
    else
      c :: pwSubAux rest
termination_by l => l.length
decreasing_by
  all_goals simp_wf <;> omega

/-- Consumption of the `val` group after `password=`: drop characters
until the first terminator, which is consumed and re-emitted (the `$`
alternative consumes nothing at the end of the string). -/
def pwConsume : List Char → List Char
  | [] => []
  | c :: rest =>
    if isPwTerm c then c :: pwSubAux rest else pwConsume rest
termination_by l => l.length
decreasing_by
  all_goals simp_wf

end

/-- Python `re.search` for the password pattern: the pattern matches at some
position, i.e. `password=` starts at some position. -/
def pwSearch : List Char → Bool
  | [] => false
  | c :: rest => pwKey.isPrefixOf (c :: rest) || pwSearch rest

/-- Python `re.sub` of the password pattern over a string, guarded by the
`re.search` test of `find_by_value`. -/
def pwReplace (s : String) : String :=
  if pwSearch s.data then String.mk (pwSubAux s.data) else s

mutual

/-- Python `find_by_value(·, password-pattern, replace=...)` run to exhaustion,
as the transformation it performs on a value sitting in a dict entry. -/
def maskValue : PyValue → PyValue
  | .str s => .str (pwReplace s)
  | .dict d => .dict (maskEntries d)
  | .list l => .list (maskElems l)
  | .none => .none
  | .other t => .other t

/-- The dict case: every entry's value is processed. -/
def maskEntries : List (String × PyValue) → List (String × PyValue)
  | [] => []
  | (k, v) :: rest => (k, maskValue v) :: maskEntries rest

/-- The list case: `find_by_value` is re-entered only on elements that
are dicts (`hasattr(d, 'items')`); all other elements pass through. -/
def maskElems : List PyValue → List PyValue
  | [] => []
  | .dict d :: rest => .dict (maskEntries d) :: maskElems rest
  | x :: rest => x :: maskElems rest

end

mutual

/-- The string values reachable by `find_by_value`: strings stored as
dict values, at any depth through dicts and through dict elements of
lists. -/
def valStrings : PyValue → List String
  | .str s => [s]
  | .dict d => dictStrings d
  | .list l => elemStrings l
  | .none => []
  | .other _ => []

/-- Reachable strings of a dict. -/
def dictStrings : List (String × PyValue) → List String
  | [] => []
  | (_, v) :: rest => valStrings v ++ dictStrings rest

/-- Reachable strings of a list: only its dict elements are entered. -/
def elemStrings : List PyValue → List String
  | [] => []
  | .dict d :: rest => dictStrings d ++ elemStrings rest
  | _ :: rest => elemStrings rest

end

/-! ### `DatabaseHandler.construct_message` and its helpers

```python
def construct_message(self, record):
    base = self.base_keys(record)
    key_aliases = self.get_key_aliases()
    sources = self.sources(record)
    data = {}
    for name, field in self.model.model_fields.items():
        if field.primary_key is True:
            continue
        if name in base:
            data[name] = base[name]
            continue
        for source in sources:
            value = None
            if name in source:
                value = source[name]
            elif name in key_aliases:
                aliases = key_aliases[name]
                for alias in aliases:
                    if alias in source:
                        value = source[alias]
                        break
            elif name in self.search_paths:
                data_ = source
                for key, is_last in annotated_last(self.search_paths[name]):
                    if not is_last:
                        data_ = data_.get(key, {})
                    else:
                        value = data_.get(key)
            if value is not None:
                data[name] = value
                break
        if name not in data:
            data[name] = None
        if name in self.key_handlers:
            data[name] = self.key_handlers[name](data[name], record)
    for _ in find_by_value(data, key=..., replace=...):
        pass
    return self.model.model_validate(data)
```

The `cast(...)` calls are runtime no-ops; where the code assumes a
looked-up intermediate is a dict (`record.msg.get('request', {})` and
the `search_paths` walk), a non-dict value is modelled as the empty
dict (the code would fail with an attribute/containment error there,
producing no row at all). -/

/-- The parts of a `logging.LogRecord` read by `construct_message`
(`self.format(record)` is embedded as the precomputed `formatted`). -/
structure LogRecord where
  name : String
  levelname : String
  created : Nat
  msg : PyValue
  args : PyValue
  formatted : String

/-- Configuration of a `DatabaseHandler` relevant to row construction:
the model's fields with their `primary_key` flag, and the customization
dictionaries passed at construction. -/
structure DBHandlerConfig where
  modelFields : List (String × Bool)
  keyAliases : List (String × List String)
  searchPaths : List (String × List String)
  keyHandlers : List (String × (PyValue → LogRecord → PyValue))

/-- Python `DatabaseHandler.base_keys`. -/
def base_keys (r : LogRecord) : List (String × PyValue) :=
  [("timestamp", .other r.created),
   ("logger", .str r.name),
   ("level", .str r.levelname),
   ("message", .str r.formatted)]

/-- The default alias table of `get_key_aliases`. -/
def defaultKeyAliases : List (String × List String) :=
  [("request_id", ["{x-request-id}i"]),
   ("method", ["m"]),
   ("protocol", ["H"]),
   ("path", ["full_path"]),
   ("client_address", ["client_addr"]),
   ("status_code", ["s"])]

/-- Lookup in `get_key_aliases()` (the defaults updated by
`self.key_aliases`: the custom table wins). -/
def keyAliasLookup (cfg : DBHandlerConfig) (name : String) :
    Option (List String) :=
  (cfg.keyAliases.lookup name).orElse (fun _ => defaultKeyAliases.lookup name)

/-- The entries of a value assumed to be a dict (see the note above on
the modelled `cast`s). -/
def asDictEntries : PyValue → List (String × PyValue)
  | .dict d => d
  | _ => []

/-- Python `d.get(k, default)`. -/
def pyDictGet (d : List (String × PyValue)) (k : String) (default : PyValue) :
    PyValue :=
  (d.lookup k).getD default

/-- Python `value is None`. -/
def PyValue.isNone : PyValue → Bool
  | .none => true
  | _ => false

/-- Python `DatabaseHandler.sources`. -/
def sources (r : LogRecord) : List (List (String × PyValue)) :=
  (match r.msg with
   | .dict d => [d, asDictEntries (pyDictGet d "request" (.dict []))]
   | _ => []) ++
  (match r.args with
   | .dict d => [d]
   | _ => [])

/-- The `for alias in aliases` scan: the first alias present in the
source gives its value. -/
def aliasValue (source : List (String × PyValue)) : List String → PyValue
  | [] => .none
  | a :: rest =>
    if (source.lookup a).isSome then pyDictGet source a .none
    else aliasValue source rest

/-- The `annotated_last(self.search_paths[name])` walk over one source:
all but the last key descend with `.get(key, {})`, the last key reads
with `.get(key)`. -/
def searchPathGo (d : List (String × PyValue)) :
    List (String × Bool) → PyValue
  | [] => .none
  | (k, false) :: rest =>
      searchPathGo (asDictEntries (pyDictGet d k (.dict []))) rest
  | (k, true) :: _ => pyDictGet d k .none

/-- The `value` computed for `name` from one source by the
`if`/`elif` chain. -/
def sourceValue (cfg : DBHandlerConfig) (source : List (String × PyValue))
    (name : String) : PyValue :=
  if (source.lookup name).isSome then
    pyDictGet source name .none
  else if (keyAliasLookup cfg name).isSome then
    aliasValue source ((keyAliasLookup cfg name).getD [])
  else if (cfg.searchPaths.lookup name).isSome then
    searchPathGo source (annotated_last ((cfg.searchPaths.lookup name).getD []))
  else
    .none

/-- The `for source in sources` loop: the first source yielding a
non-`None` value wins. -/
def firstSourceValue (cfg : DBHandlerConfig)
    (srcs : List (List (String × PyValue))) (name : String) : Option PyValue :=
  match srcs with
  | [] => Option.none
  | s :: rest =>
    let v := sourceValue cfg s name
    if v.isNone then firstSourceValue cfg rest name else some v

/-- The value `data[name]` holds for a non-primary-key field that is not
a base key, after the source loop, the `None` default and the key
handler. -/
def fieldValue (cfg : DBHandlerConfig) (r : LogRecord) (name : String) :
    PyValue :=
  let v := (firstSourceValue cfg (sources r) name).getD .none
  match cfg.keyHandlers.lookup name with
  | some f => f v r
  | Option.none => v

/-- The `data` dictionary assembled by the field loop of
`construct_message`, before the password masking pass. -/
def buildData (cfg : DBHandlerConfig) (r : LogRecord) :
    List (String × PyValue) :=
  (cfg.modelFields.filter (fun f => !f.2)).map (fun f =>
    (f.1,
     if ((base_keys r).lookup f.1).isSome then pyDictGet (base_keys r) f.1 .none
     else fieldValue cfg r f.1))

/-- The validated model row (`self.model.model_validate(data)`), keeping
the validated data. -/
structure ValidatedModel where
  data : List (String × PyValue)

/-- Python `DatabaseHandler.construct_message`: assemble the row data, run the
password-masking `find_by_value` pass over it, validate. -/
def construct_message (cfg : DBHandlerConfig) (r : LogRecord) :
    ValidatedModel :=
  { data := maskEntries (buildData cfg r) }

/-! # Theorems -/

theorem annotatedLastGo_map_fst {α : Type} (p : α) (l : List α) :
    (annotatedLastGo p l).map Prod.fst = p :: l := by
  induction l generalizing p with
  | nil => rfl
  | cons c rest ih => simpa [annotatedLastGo] using ih c

theorem annotatedLastGo_map_snd {α : Type} (p : α) (l : List α) :
    (annotatedLastGo p l).map Prod.snd =
      List.replicate l.length false ++ [true] := by
  induction l generalizing p with
  | nil => rfl
  | cons c rest ih => simpa [annotatedLastGo, List.replicate_succ] using ih c

/-- C10: `annotated_last` yields exactly the elements of the sequence in
their original order, flagged `True` exactly on the final element
(`False` on every earlier one), and yields nothing on the empty
sequence. -/
theorem claim_C10 {α : Type} (l : List α) :
    (annotated_last l).map Prod.fst = l ∧
      (annotated_last l).map Prod.snd =
        List.replicate (l.length - 1) false ++
          List.replicate (min l.length 1) true := by
  cases l with
  | nil => exact ⟨rfl, rfl⟩
  | cons x rest =>
    refine ⟨annotatedLastGo_map_fst x rest, ?_⟩
    simp [annotated_last, annotatedLastGo_map_snd]

/-- C9: `AccessLogAtoms.__getitem__` is total: with the key normalized
(lowercased when it starts with `'{'`), an absent key yields the string
`'-'` and a present key yields the stored value; the `KeyError` of the
underlying `dict` lookup never escapes. -/
theorem claim_C9 {V : Type} (m : List (String × AtomValue V)) (key : String) :
    (m.lookup (atomsNormKey key) = Option.none →
        accessLogAtomsGetItem m key = .str "-") ∧
      (∀ v, m.lookup (atomsNormKey key) = some v →
        accessLogAtomsGetItem m key = v) := by
  constructor
  · intro h
    simp [accessLogAtomsGetItem, dictGetItem, h]
  · intro v h
    simp [accessLogAtomsGetItem, dictGetItem, h]

/-- Witness for C9 at a concrete mapping: a missing key falls back to
`'-'`, a stored key returns its value. -/
theorem claim_C9_witness :
    accessLogAtomsGetItem [("m", AtomValue.payload (7 : Nat))] "s" =
        .str "-" ∧
      accessLogAtomsGetItem [("m", AtomValue.payload (7 : Nat))] "m" =
        .payload 7 :=
  ⟨(claim_C9 _ _).1 (by decide), (claim_C9 _ _).2 _ (by decide)⟩

/-- C3: with the hook installed by `set_handle_exception`, an uncaught
exception whose type is not a `KeyboardInterrupt` subclass is logged as
the error event `'Uncaught exception'` with exception info attached,
while a `KeyboardInterrupt` subclass goes to the original
`sys.__excepthook__` with nothing logged. -/
theorem claim_C3 (hook : SysExcepthook) (e : ExcType) :
    (e.isKeyboardInterruptSubclass = false →
        uncaughtExceptionAction (set_handle_exception hook) e =
          .logError "Uncaught exception" true) ∧
      (e.isKeyboardInterruptSubclass = true →
        uncaughtExceptionAction (set_handle_exception hook) e =
          .origExcepthook) := by
  constructor
  · intro h
    simp [uncaughtExceptionAction, set_handle_exception, handle_exception, h]
  · intro h
    simp [uncaughtExceptionAction, set_handle_exception, handle_exception, h]

/-- Witness for C3: both branches at concrete exception types, starting
from the interpreter default hook. -/
theorem claim_C3_witness :
    uncaughtExceptionAction (set_handle_exception .interpreterDefault)
        ⟨false⟩ = .logError "Uncaught exception" true ∧
      uncaughtExceptionAction (set_handle_exception .interpreterDefault)
        ⟨true⟩ = .origExcepthook :=
  ⟨(claim_C3 _ _).1 (by decide), (claim_C3 _ _).2 (by decide)⟩

/-- C2: `configure_processor` returns the fixed chain
`merge_contextvars, add_logger_name, add_log_level,
sanitize_authorization_token, add_app_context,
PositionalArgumentsFormatter, ExtraAdder, drop_color_message_key,
TimeStamper(iso), StackInfoRenderer, EventRenamer(to=event_key)`, with a
`SentryProcessor(event_level=ERROR)` inserted at position 3 when
`structlog_sentry` is importable, and exactly one traceback processor
appended when `json_logs` is true (`format_exc_info` if
`traceback_as_str`, else `dict_tracebacks`), none when it is false. -/
theorem claim_C2 (find_structlog_sentry json_logs traceback_as_str : Bool)
    (event_key : String) :
    configure_processor find_structlog_sentry json_logs event_key
        traceback_as_str =
      ([.merge_contextvars, .add_logger_name, .add_log_level] ++
        (if find_structlog_sentry then
          [Processor.sentryProcessor loggingERROR] else []) ++
        [.sanitize_authorization_token, .add_app_context,
         .positionalArgumentsFormatter, .extraAdder,
         .drop_color_message_key, .timeStamper "iso", .stackInfoRenderer,
         .eventRenamer event_key]) ++
      (if json_logs then
        (if traceback_as_str then [Processor.format_exc_info]
         else [Processor.dict_tracebacks])
       else []) := by
  cases find_structlog_sentry <;> cases json_logs <;>
    cases traceback_as_str <;> rfl

theorem logTypeMembers_complete (t : LogType) : t ∈ logTypeMembers := by
  cases t <;> simp [logTypeMembers]

theorem setupLoop_acc {H : Type} (types : List LogType)
    (registered : LogType → Option H) :
    ∀ (ts : List LogType) (root : List (RootHandler H)) (hs : List H)
      (root' : List (RootHandler H)) (hs' : List H),
      setupLoop types registered ts root hs = .ok (root', hs') →
      (∀ x, x ∈ root → x ∈ root') ∧ ∀ x, x ∈ hs → x ∈ hs' := by
  intro ts
  induction ts with
  | nil =>
    intro root hs root' hs' h
    simp only [setupLoop, Except.ok.injEq, Prod.mk.injEq] at h
    obtain ⟨rfl, rfl⟩ := h
    exact ⟨fun x hx => hx, fun x hx => hx⟩
  | cons t ts ih =>
    intro root hs root' hs' h
    rw [setupLoop] at h
    by_cases ht : t ∈ types
    · rw [if_pos ht] at h
      cases hreg : registered t with
      | none => rw [hreg] at h; exact absurd h (by simp)
      | some hd =>
        rw [hreg] at h
        dsimp only at h
        by_cases hc : t = LogType.CONSOLE
        · rw [if_pos hc] at h
          obtain ⟨hroot, hhs⟩ := ih _ _ _ _ h
          exact ⟨fun x hx => hroot x (List.mem_append_left _ hx), hhs⟩
        · rw [if_neg hc] at h
          obtain ⟨hroot, hhs⟩ := ih _ _ _ _ h
          exact ⟨hroot, fun x hx => hhs x (List.mem_append_left _ hx)⟩
    · rw [if_neg ht] at h
      exact ih _ _ _ _ h

theorem setupLoop_collect {H : Type} (types : List LogType)
    (registered : LogType → Option H) :
    ∀ (ts : List LogType) (root : List (RootHandler H)) (hs : List H)
      (root' : List (RootHandler H)) (hs' : List H),
      setupLoop types registered ts root hs = .ok (root', hs') →
      ∀ t, t ∈ ts → t ∈ types → ∀ hd, registered t = some hd →
        (t ≠ LogType.CONSOLE → hd ∈ hs') ∧
          (t = LogType.CONSOLE → RootHandler.direct hd ∈ root') := by
  intro ts
  induction ts with
  | nil => intro root hs root' hs' _ t hts; simp at hts
  | cons t' ts ih =>
    intro root hs root' hs' h t hts htypes hd hreg
    rw [setupLoop] at h
    rcases List.mem_cons.mp hts with rfl | hts
    · rw [if_pos htypes, hreg] at h
      dsimp only at h
      by_cases hc : t = LogType.CONSOLE
      · rw [if_pos hc] at h
        refine ⟨fun hne => absurd hc hne, fun _ => ?_⟩
        exact (setupLoop_acc types registered _ _ _ _ _ h).1 _
          (List.mem_append_right _ (List.mem_singleton_self _))
      · rw [if_neg hc] at h
        refine ⟨fun _ => ?_, fun heq => absurd heq hc⟩
        exact (setupLoop_acc types registered _ _ _ _ _ h).2 _
          (List.mem_append_right _ (List.mem_singleton_self _))
    · by_cases ht' : t' ∈ types
      · rw [if_pos ht'] at h
        cases hreg' : registered t' with
        | none => rw [hreg'] at h; exact absurd h (by simp)
        | some hd' =>
          rw [hreg'] at h
          dsimp only at h
          by_cases hc' : t' = LogType.CONSOLE
          · rw [if_pos hc'] at h
            exact ih _ _ _ _ h t hts htypes hd hreg
          · rw [if_neg hc'] at h
            exact ih _ _ _ _ h t hts htypes hd hreg
      · rw [if_neg ht'] at h
        exact ih _ _ _ _ h t hts htypes hd hreg

theorem setupLoop_src {H : Type} (types : List LogType)
    (registered : LogType → Option H) :
    ∀ (ts : List LogType) (root : List (RootHandler H)) (hs : List H)
      (root' : List (RootHandler H)) (hs' : List H),
      setupLoop types registered ts root hs = .ok (root', hs') →
      ∀ x, x ∈ hs' → x ∈ hs ∨
        ∃ t, t ∈ ts ∧ t ∈ types ∧ t ≠ LogType.CONSOLE ∧
          registered t = some x := by
  intro ts
  induction ts with
  | nil =>
    intro root hs root' hs' h x hx
    simp only [setupLoop, Except.ok.injEq, Prod.mk.injEq] at h
    exact Or.inl (h.2 ▸ hx)
  | cons t' ts ih =>
    intro root hs root' hs' h x hx
    rw [setupLoop] at h
    by_cases ht' : t' ∈ types
    · rw [if_pos ht'] at h
      cases hreg' : registered t' with
      | none => rw [hreg'] at h; exact absurd h (by simp)
      | some hd' =>
        rw [hreg'] at h
        dsimp only at h
        by_cases hc' : t' = LogType.CONSOLE
        · rw [if_pos hc'] at h
          rcases ih _ _ _ _ h x hx with hmem | ⟨t, hts, h1, h2, h3⟩
          · exact Or.inl hmem
          · exact Or.inr ⟨t, List.mem_cons_of_mem _ hts, h1, h2, h3⟩
        · rw [if_neg hc'] at h
          rcases ih _ _ _ _ h x hx with hmem | ⟨t, hts, h1, h2, h3⟩
          · rcases List.mem_append.mp hmem with hmem | hmem
            · exact Or.inl hmem
            · refine Or.inr ⟨t', List.mem_cons_self _ _, ht', hc', ?_⟩
              rw [hreg', List.mem_singleton.mp hmem]
          · exact Or.inr ⟨t, List.mem_cons_of_mem _ hts, h1, h2, h3⟩
    · rw [if_neg ht'] at h
      rcases ih _ _ _ _ h x hx with hmem | ⟨t, hts, h1, h2, h3⟩
      · exact Or.inl hmem
      · exact Or.inr ⟨t, List.mem_cons_of_mem _ hts, h1, h2, h3⟩

theorem setupLoop_root_src {H : Type} (types : List LogType)
    (registered : LogType → Option H) :
    ∀ (ts : List LogType) (root : List (RootHandler H)) (hs : List H)
      (root' : List (RootHandler H)) (hs' : List H),
      setupLoop types registered ts root hs = .ok (root', hs') →
      ∀ e, e ∈ root' → e ∈ root ∨ ∃ hd, e = RootHandler.direct hd := by
  intro ts
  induction ts with
  | nil =>
    intro root hs root' hs' h e he
    simp only [setupLoop, Except.ok.injEq, Prod.mk.injEq] at h
    exact Or.inl (h.1 ▸ he)
  | cons t' ts ih =>
    intro root hs root' hs' h e he
    rw [setupLoop] at h
    by_cases ht' : t' ∈ types
    · rw [if_pos ht'] at h
      cases hreg' : registered t' with
      | none => rw [hreg'] at h; exact absurd h (by simp)
      | some hd' =>
        rw [hreg'] at h
        dsimp only at h
        by_cases hc' : t' = LogType.CONSOLE
        · rw [if_pos hc'] at h
          rcases ih _ _ _ _ h e he with hmem | hd
          · rcases List.mem_append.mp hmem with hmem | hmem
            · exact Or.inl hmem
            · exact Or.inr ⟨hd', List.mem_singleton.mp hmem⟩
          · exact Or.inr hd
        · rw [if_neg hc'] at h
          exact ih _ _ _ _ h e he
    · rw [if_neg ht'] at h
      exact ih _ _ _ _ h e he

/-- C4: `LoggerConfigurator.setup` returns a `QueueListener` over the
shared module-level queue if and only if some configured type other than
`CONSOLE` has a registered handler, adds the `QueueHandler` to the root
logger in exactly that case, and with only `CONSOLE` configured returns
`None` and adds no `QueueHandler`. -/
theorem claim_C4 {H : Type} (types : List LogType)
    (registered : LogType → Option H) (res : SetupResult H)
    (h : setup types registered = .ok res) :
    (res.listener.isSome ↔
        ∃ t, t ∈ types ∧ t ≠ LogType.CONSOLE ∧ (registered t).isSome) ∧
      (∀ l, res.listener = some l → l.queue = _queue) ∧
      ((RootHandler.queueHandler _queue ∈ res.rootHandlers) ↔
        res.listener.isSome) ∧
      ((∀ t ∈ types, t = LogType.CONSOLE) →
        res.listener = Option.none ∧
          ∀ q, RootHandler.queueHandler q ∉ res.rootHandlers) := by
  rw [setup] at h
  cases hloop : setupLoop types registered logTypeMembers [] [] with
  | error e => rw [hloop] at h; exact absurd h (by simp)
  | ok p =>
    obtain ⟨root, hs⟩ := p
    rw [hloop] at h
    dsimp only at h
    have hnoq : ∀ q, RootHandler.queueHandler q ∉ root := by
      intro q hmem
      rcases setupLoop_root_src types registered _ _ _ _ _ hloop _ hmem with
        hmem | ⟨hd, heq⟩
      · simp at hmem
      · simp at heq
    by_cases hemp : hs.isEmpty
    · rw [if_pos hemp] at h
      obtain rfl : SetupResult.mk root Option.none = res := by injection h
      have hsnil : hs = [] := by simpa using hemp
      subst hsnil
      refine ⟨?_, ?_, ?_, ?_⟩
      · simp only [Option.isSome_none, Bool.false_eq_true, false_iff]
        rintro ⟨t, ht, hc, hsome⟩
        obtain ⟨hd, hreg⟩ := Option.isSome_iff_exists.mp hsome
        have := (setupLoop_collect types registered _ _ _ _ _ hloop t
          (logTypeMembers_complete t) ht hd hreg).1 hc
        simp at this
      · intro l hl
        simp at hl
      · simp only [Option.isSome_none, Bool.false_eq_true, iff_false]
        exact hnoq _queue
      · exact fun _ => ⟨rfl, hnoq⟩
    · rw [if_neg hemp] at h
      obtain rfl :
          SetupResult.mk (root ++ [RootHandler.queueHandler _queue])
            (some ⟨_queue, hs⟩) = res := by injection h
      have hne : hs ≠ [] := by simpa [List.isEmpty_iff] using hemp
      refine ⟨?_, ?_, ?_, ?_⟩
      · simp only [Option.isSome_some, true_iff]
        obtain ⟨x, hx⟩ := List.exists_mem_of_ne_nil _ hne
        rcases setupLoop_src types registered _ _ _ _ _ hloop x hx with
          hmem | ⟨t, _, ht, hc, hreg⟩
        · simp at hmem
        · exact ⟨t, ht, hc, by rw [hreg]; rfl⟩
      · intro l hl
        injection hl with hl
        rw [← hl]
      · simp only [Option.isSome_some, iff_true]
        exact List.mem_append_right _ (List.mem_singleton_self _)
      · intro hall
        exfalso
        obtain ⟨x, hx⟩ := List.exists_mem_of_ne_nil _ hne
        rcases setupLoop_src types registered _ _ _ _ _ hloop x hx with
          hmem | ⟨t, _, ht, hc, _⟩
        · simp at hmem
        · exact hc (hall t ht)

/-- Witness for C4 at a concrete configuration `[CONSOLE, FILE]` with
both handlers registered: the listener exists over the shared queue and
the `QueueHandler` is on the root logger. -/
theorem claim_C4_witness :
    (∃ t, t ∈ [LogType.CONSOLE, LogType.FILE] ∧ t ≠ LogType.CONSOLE ∧
        ((fun t => if t = LogType.CONSOLE then some (10 : Nat)
          else if t = LogType.FILE then some 11 else Option.none) t).isSome) ∧
      RootHandler.queueHandler _queue ∈
        (SetupResult.mk [RootHandler.direct (10 : Nat),
          RootHandler.queueHandler _queue]
          (some ⟨_queue, [11]⟩)).rootHandlers :=
  ⟨(claim_C4 [LogType.CONSOLE, LogType.FILE]
      (fun t => if t = LogType.CONSOLE then some (10 : Nat)
        else if t = LogType.FILE then some 11 else Option.none)
      ⟨[RootHandler.direct 10, RootHandler.queueHandler _queue],
        some ⟨_queue, [11]⟩⟩ rfl).1.mp rfl,
    (claim_C4 [LogType.CONSOLE, LogType.FILE]
      (fun t => if t = LogType.CONSOLE then some (10 : Nat)
        else if t = LogType.FILE then some 11 else Option.none)
      ⟨[RootHandler.direct 10, RootHandler.queueHandler _queue],
        some ⟨_queue, [11]⟩⟩ rfl).2.2.1.mpr rfl⟩

/-- C1 (counterexample to the claim as stated): with the non-empty
types list `[CONSOLE]` and the console handler registered, `setup`
returns no `QueueListener` at all and attaches the console handler
directly (synchronously) to the root logger, with no `QueueHandler`
enqueuing records — so the console sink is not dispatched through the
queue. -/
theorem claim_C1_counterexample :
    ∃ res : SetupResult Nat,
      setup [LogType.CONSOLE]
        (fun t => if t = LogType.CONSOLE then some 0 else Option.none) =
          .ok res ∧
      LogType.CONSOLE ∈ [LogType.CONSOLE] ∧
      RootHandler.direct 0 ∈ res.rootHandlers ∧
      res.listener = Option.none ∧
      ∀ q, RootHandler.queueHandler q ∉ res.rootHandlers := by
  refine ⟨⟨[RootHandler.direct 0], Option.none⟩, rfl,
    List.mem_singleton_self _, List.mem_singleton_self _, rfl, ?_⟩
  intro q hmem
  simp at hmem

/-- C1 (amended): every configured sink other than the console is routed
through the non-blocking queue — a registered handler whose non-`CONSOLE`
type appears in `settings.types` ends up in the returned `QueueListener`
over the module-level queue, with the `QueueHandler` added to the root
logger — while the console handler is attached directly to the root
logger. -/
theorem claim_C1 {H : Type} (types : List LogType)
    (registered : LogType → Option H) (res : SetupResult H)
    (h : setup types registered = .ok res) :
    (∀ t, t ∈ types → t ≠ LogType.CONSOLE → ∀ hd, registered t = some hd →
        ∃ l, res.listener = some l ∧ l.queue = _queue ∧ hd ∈ l.handlers ∧
          RootHandler.queueHandler _queue ∈ res.rootHandlers) ∧
      (LogType.CONSOLE ∈ types → ∀ hd,
        registered LogType.CONSOLE = some hd →
          RootHandler.direct hd ∈ res.rootHandlers) := by
  rw [setup] at h
  cases hloop : setupLoop types registered logTypeMembers [] [] with
  | error e => rw [hloop] at h; exact absurd h (by simp)
  | ok p =>
    obtain ⟨root, hs⟩ := p
    rw [hloop] at h
    dsimp only at h
    by_cases hemp : hs.isEmpty
    · rw [if_pos hemp] at h
      obtain rfl : SetupResult.mk root Option.none = res := by injection h
      have hsnil : hs = [] := by simpa using hemp
      subst hsnil
      constructor
      · intro t ht hc hd hreg
        have := (setupLoop_collect types registered _ _ _ _ _ hloop t
          (logTypeMembers_complete t) ht hd hreg).1 hc
        simp at this
      · intro ht hd hreg
        exact (setupLoop_collect types registered _ _ _ _ _ hloop _
          (logTypeMembers_complete _) ht hd hreg).2 rfl
    · rw [if_neg hemp] at h
      obtain rfl :
          SetupResult.mk (root ++ [RootHandler.queueHandler _queue])
            (some ⟨_queue, hs⟩) = res := by injection h
      constructor
      · intro t ht hc hd hreg
        refine ⟨⟨_queue, hs⟩, rfl, rfl, ?_, ?_⟩
        · exact (setupLoop_collect types registered _ _ _ _ _ hloop t
            (logTypeMembers_complete t) ht hd hreg).1 hc
        · exact List.mem_append_right _ (List.mem_singleton_self _)
      · intro ht hd hreg
        exact List.mem_append_left _
          ((setupLoop_collect types registered _ _ _ _ _ hloop _
            (logTypeMembers_complete _) ht hd hreg).2 rfl)

/-- Witness for the amended C1 at the concrete configuration
`[SYSLOG]`: the registered syslog handler is in the listener's handler
list over the shared queue. -/
theorem claim_C1_witness :
    ∃ l, (SetupResult.mk [RootHandler.queueHandler _queue]
        (some (QueueListener.mk _queue [(5 : Nat)]))).listener = some l ∧
      l.queue = _queue ∧ (5 : Nat) ∈ l.handlers ∧
      RootHandler.queueHandler _queue ∈
        (SetupResult.mk [RootHandler.queueHandler _queue]
          (some (QueueListener.mk _queue [(5 : Nat)]))).rootHandlers :=
  (claim_C1 [LogType.SYSLOG]
    (fun t => if t = LogType.SYSLOG then some (5 : Nat) else Option.none)
    ⟨[RootHandler.queueHandler _queue], some ⟨_queue, [5]⟩⟩ rfl).1
    LogType.SYSLOG (List.mem_singleton_self _) (by decide) 5 rfl

/-- C5 (counterexample to the claim as stated): with a DSN present and
the release argument explicitly given as the empty string, the code's
`release or f'{app_slug}@{version}'` ignores the given argument and
passes the formatted fallback to `sentry_sdk.init`, not the explicit
release. -/
theorem claim_C5_counterexample :
    init_sentry ⟨some "https://sentry.example/1"⟩ (some "") (some "app")
        (some "0.1") = .initCalled "app@0.1" ∧
      SentryAction.initCalled "app@0.1" ≠ .initCalled "" :=
  ⟨rfl, by decide⟩

/-- C5 (amended): `init_sentry` reaches `sentry_sdk.init` exactly when
the loaded settings carry a DSN; with the DSN missing it only logs the
`'Sentry is not configured! Missing DSN!'` warning on the `init_sentry`
logger; when initializing, the release is the explicit `release`
argument if it is given and non-empty, and with `release` missing or
empty (Python truthiness of `release or ...`) it is `'app_slug@version'`
formatted from the two arguments. -/
theorem claim_C5 (settings : SentrySettings)
    (release app_slug version : Option String) :
    ((∃ rel, init_sentry settings release app_slug version =
        .initCalled rel) ↔ settings.dsn.isSome) ∧
      (settings.dsn = Option.none →
        ∃ pre post, init_sentry settings release app_slug version =
          .warned "init_sentry"
            (pre ++ "Sentry is not configured! Missing DSN!" ++ post)) ∧
      (∀ d rel, settings.dsn = some d → release = some rel → rel ≠ "" →
        init_sentry settings release app_slug version = .initCalled rel) ∧
      (∀ d, settings.dsn = some d →
        (release = Option.none ∨ release = some "") →
        init_sentry settings release app_slug version =
          .initCalled
            (pyFormatOpt app_slug ++ "@" ++ pyFormatOpt version)) := by
  refine ⟨?_, ?_, ?_, ?_⟩
  · cases h : settings.dsn with
    | none => simp [init_sentry, h]
    | some d => simp [init_sentry, h]
  · intro h
    refine ⟨"\x1b[33;20m", "\x1b[0m", ?_⟩
    simp only [init_sentry, h]
    rfl
  · intro d rel hd hr hne
    simp [init_sentry, hd, hr, pyOrStr, hne]
  · intro d hd hr
    rcases hr with rfl | rfl <;> simp [init_sentry, hd, pyOrStr]

/-- Witness for the amended C5: concrete runs through each branch
(missing DSN, explicit non-empty release, missing release, explicitly
empty release). -/
theorem claim_C5_witness :
    (∃ pre post, init_sentry ⟨Option.none⟩ (some "1.2.3") (some "app")
        (some "0.1") =
      .warned "init_sentry"
        (pre ++ "Sentry is not configured! Missing DSN!" ++ post)) ∧
      init_sentry ⟨some "https://sentry.example/1"⟩ (some "1.2.3")
          (some "app") (some "0.1") = .initCalled "1.2.3" ∧
      init_sentry ⟨some "https://sentry.example/1"⟩ Option.none
          (some "app") (some "0.1") = .initCalled "app@0.1" ∧
      init_sentry ⟨some "https://sentry.example/1"⟩ (some "")
          (some "app") (some "0.1") = .initCalled "app@0.1" :=
  ⟨(claim_C5 ⟨Option.none⟩ (some "1.2.3") (some "app") (some "0.1")).2.1
      rfl,
    (claim_C5 ⟨some "https://sentry.example/1"⟩ (some "1.2.3") (some "app")
        (some "0.1")).2.2.1 _ _ rfl rfl (by decide),
    (claim_C5 ⟨some "https://sentry.example/1"⟩ Option.none (some "app")
        (some "0.1")).2.2.2 _ rfl (Or.inl rfl),
    (claim_C5 ⟨some "https://sentry.example/1"⟩ (some "") (some "app")
        (some "0.1")).2.2.2 _ rfl (Or.inr rfl)⟩

/-- C6: database persistence is guarded:
`DatabaseHandlerFactory.create_handler` raises `ValueError` whenever
`model` or `db_url` is `None`, and the registration phase of
`setup_logger` adds an `INTERNAL` handler only when both `db_url` and
`model` are provided — when either is absent it completes without error
and registers no database handler. -/
theorem claim_C6 {M : Type} (filename syslogHost : Option String)
    (port : Nat) (db_url : Option String) (model : Option M) :
    (∀ u : Option String, create_handler (Option.none : Option M) u =
        .error "The model argument is required when logging into a database") ∧
      (∀ m : M, create_handler (some m) (Option.none : Option String) =
        .error
          "The session_maker argument is required when logging into a database") ∧
      (∀ hs, setupLoggerRegister filename syslogHost port db_url model =
          .ok hs → (∃ h, (LogType.INTERNAL, h) ∈ hs) →
            db_url.isSome ∧ model.isSome) ∧
      (db_url = Option.none ∨ model = Option.none →
        ∃ hs, setupLoggerRegister filename syslogHost port db_url model =
          .ok hs ∧ ∀ h, (LogType.INTERNAL, h) ∉ hs) := by
  have hnotin : ∀ h : RegisteredHandler M,
      (LogType.INTERNAL, h) ∉
        setupRegisterBase (M := M) filename syslogHost port := by
    intro h hmem
    simp only [setupRegisterBase, List.mem_append] at hmem
    rcases hmem with (hmem | hmem) | hmem
    · simp at hmem
    · cases filename <;> simp_all
    · split at hmem <;> simp_all
  refine ⟨fun u => rfl, fun m => rfl, ?_, ?_⟩
  · intro hs hok hmem
    by_cases hguard : (pyTruthyOptStr db_url && model.isSome) = true
    · obtain ⟨hurl, hm⟩ := Bool.and_eq_true_iff.mp hguard
      refine ⟨?_, hm⟩
      cases db_url with
      | none => simp [pyTruthyOptStr] at hurl
      | some u => simp
    · rw [setupLoggerRegister, if_neg hguard] at hok
      obtain rfl : setupRegisterBase (M := M) filename syslogHost port = hs :=
        by injection hok
      obtain ⟨h, hh⟩ := hmem
      exact absurd hh (hnotin h)
  · intro habs
    refine ⟨setupRegisterBase filename syslogHost port, ?_, hnotin⟩
    rw [setupLoggerRegister, if_neg]
    rcases habs with h | h <;> simp [h, pyTruthyOptStr]

/-- Witness for C6: concrete runs — both `ValueError`s of
`create_handler`, a registration without `db_url` that completes with
no database handler, and a registration with both arguments whose
result does carry the `INTERNAL` handler. -/
theorem claim_C6_witness :
    create_handler (Option.none : Option Unit) (some "postgresql://db") =
        .error
          "The model argument is required when logging into a database" ∧
      create_handler (some ()) (Option.none : Option String) =
        .error
          "The session_maker argument is required when logging into a database" ∧
      (∃ hs, setupLoggerRegister (M := Unit) Option.none Option.none 514
          Option.none (some ()) = .ok hs ∧
          ∀ h, (LogType.INTERNAL, h) ∉ hs) ∧
      ((some "postgresql://db" : Option String).isSome ∧
        (some () : Option Unit).isSome) :=
  ⟨(claim_C6 Option.none Option.none 514 (some "postgresql://db")
      (Option.none : Option Unit)).1 (some "postgresql://db"),
    (claim_C6 Option.none Option.none 514 (Option.none : Option String)
      (some ())).2.1 (),
    (claim_C6 (M := Unit) Option.none Option.none 514 Option.none
      (some ())).2.2.2 (Or.inl rfl),
    (claim_C6 (M := Unit) Option.none Option.none 514
      (some "postgresql://db") (some ())).2.2.1
      [(LogType.CONSOLE, .console),
       (LogType.INTERNAL, .database ⟨"postgresql://db", ()⟩)]
      rfl ⟨.database ⟨"postgresql://db", ()⟩,
        List.Mem.tail _ (List.Mem.head _)⟩⟩

/-- How the claim C7 words the validators, as a definition of its own:
split the bracket-stripped string on commas (list inputs are taken as
given), then convert every item — strings are whitespace-trimmed,
lowercased and matched against the enum values, enum members pass
through unchanged, and an item naming no member is a validation
error. -/
def claimEnumItemsSpec {E : Type} (enumName : String)
    (ofValue : String → Option E) : List (StrOr E) → Except String (List E)
  | [] => .ok []
  | .str raw :: rest =>
    match ofValue (pyToLower (pyStripWs raw)) with
    | some e => (claimEnumItemsSpec enumName ofValue rest).map (e :: ·)
    | Option.none =>
        .error ("'" ++ pyToLower (pyStripWs raw) ++ "' is not a valid "
          ++ enumName)
  | .enum e :: rest => (claimEnumItemsSpec enumName ofValue rest).map (e :: ·)

/-- The items a validator input denotes, per the claim: a string is
bracket-stripped and split on commas; a list is taken elementwise. -/
def claimValidatorItems {E : Type} : ValidatorInput E → List (StrOr E)
  | .str s => ((pyStripChars s ['[', ']']).splitOn ",").map .str
  | .list l => l

theorem mapMPrime_map {m : Type → Type} [Monad m] {α β γ : Type}
    (g : α → β) (f : β → m γ) (l : List α) :
    List.mapM' f (l.map g) = List.mapM' (fun a => f (g a)) l := by
  induction l with
  | nil => rfl
  | cons a rest ih => simp only [List.map_cons, List.mapM'_cons, ih]

theorem claimEnumItemsSpec_eq {E : Type} (enumName : String)
    (ofValue : String → Option E) (items : List (StrOr E)) :
    List.mapM' (fun i =>
        match i with
        | .str s => enumCall enumName ofValue (pyToLower (pyStripWs s))
        | .enum e => .ok e) items =
      claimEnumItemsSpec enumName ofValue items := by
  induction items with
  | nil => rfl
  | cons i rest ih =>
    cases i with
    | str s =>
      simp only [enumCall] at ih ⊢
      rw [List.mapM'_cons, claimEnumItemsSpec]
      cases h : ofValue (pyToLower (pyStripWs s)) with
      | none =>
        simp only [h]
        rfl
      | some e =>
        simp only [h]
        rw [ih]
        cases hspec : claimEnumItemsSpec enumName ofValue rest <;> rfl
    | enum e =>
      rw [List.mapM'_cons, claimEnumItemsSpec, ih]
      cases hspec : claimEnumItemsSpec enumName ofValue rest <;> rfl

/-- C7: the `types` and `methods` validators behave as described: a
string input is bracket-stripped and split on commas, every item is
trimmed, lowercased and converted to the corresponding enum member
(`HTTPMethod` / `LogType`); in a list input string elements are
trimmed, lowercased and converted while enum elements pass through; an
item naming no member is a validation error. -/
theorem claim_C7 :
    (∀ v, LogSettings._create_methods v =
        claimEnumItemsSpec "HTTPMethod" HTTPMethod.ofValue
          (claimValidatorItems v)) ∧
      (∀ v, LogSettings._create_types v =
        claimEnumItemsSpec "LogType" LogType.ofValue
          (claimValidatorItems v)) := by
  constructor
  · intro v
    cases v with
    | str s =>
      rw [LogSettings._create_methods, createEnumList, claimValidatorItems,
        ← claimEnumItemsSpec_eq, mapMPrime_map, List.mapM'_eq_mapM]
    | list l =>
      rw [LogSettings._create_methods, createEnumList, claimValidatorItems,
        ← claimEnumItemsSpec_eq, List.mapM'_eq_mapM]
  · intro v
    cases v with
    | str s =>
      rw [LogSettings._create_types, createEnumList, claimValidatorItems,
        ← claimEnumItemsSpec_eq, mapMPrime_map, List.mapM'_eq_mapM]
    | list l =>
      rw [LogSettings._create_types, createEnumList, claimValidatorItems,
        ← claimEnumItemsSpec_eq, List.mapM'_eq_mapM]

theorem isPrefixOf_append_self (l r : List Char) :
    l.isPrefixOf (l ++ r) = true := by
  induction l with
  | nil => simp [List.isPrefixOf]
  | cons c cs ih => simp [List.isPrefixOf, ih]

theorem pwSearchOfKey (s : List Char) (h : pwKey.isPrefixOf s = true) :
    pwSearch s = true := by
  cases s with
  | nil => exact absurd h (by simp [pwKey, List.isPrefixOf])
  | cons c rest => simp [pwSearch, h]

theorem pwSearch_append (a s : List Char) (h : pwSearch s = true) :
    pwSearch (a ++ s) = true := by
  induction a with
  | nil => simpa using h
  | cons c a' ih => simp [pwSearch, ih]

theorem pwSubAux_eq_self (l : List Char) (h : pwSearch l = false) :
    pwSubAux l = l := by
  induction l with
  | nil => simp [pwSubAux]
  | cons c rest ih =>
    rw [pwSearch, Bool.or_eq_false_iff] at h
    rw [pwSubAux, if_neg (by simp [h.1]), ih h.2]

theorem pwSubAux_append (a s : List Char)
    (H : ∀ i, i < a.length → pwKey.isPrefixOf (a.drop i ++ s) = false) :
    pwSubAux (a ++ s) = a ++ pwSubAux s := by
  induction a with
  | nil => simp
  | cons c a' ih =>
    have h0 := H 0 (Nat.succ_pos _)
    rw [List.drop_zero, List.cons_append] at h0
    rw [List.cons_append, pwSubAux, if_neg (by simp [h0])]
    rw [ih (fun i hi => by
      simpa using H (i + 1) (by simpa using Nat.succ_lt_succ hi))]
    rw [List.cons_append]

theorem pwConsume_append_no_term (v r : List Char)
    (hv : ∀ c ∈ v, isPwTerm c = false) :
    pwConsume (v ++ r) = pwConsume r := by
  induction v with
  | nil => rfl
  | cons c v' ih =>
    rw [List.cons_append, pwConsume,
      if_neg (by simp [hv c (List.mem_cons_self _ _)])]
    exact ih fun c hc => hv c (List.mem_cons_of_mem _ hc)

theorem pwConsume_term_cons (t : Char) (b : List Char)
    (ht : isPwTerm t = true) :
    pwConsume (t :: b) = t :: pwSubAux b := by
  rw [pwConsume, if_pos ht]

theorem pwSubAux_key (rest : List Char) :
    pwSubAux (pwKey ++ rest) = pwMask ++ pwConsume rest := by
  have hcons : pwKey ++ rest = 'p' :: ("assword=".data ++ rest) := rfl
  rw [hcons, pwSubAux, if_pos (by rw [← hcons]; exact isPrefixOf_append_self _ _)]
  have hdrop : ('p' :: ("assword=".data ++ rest)).drop 9 = rest := by
    rw [← hcons, show (9 : Nat) = pwKey.length from rfl, List.drop_left]
  rw [hdrop]

theorem pwReplace_data (s : String) :
    (pwReplace s).data = pwSubAux s.data := by
  rw [pwReplace]
  by_cases h : pwSearch s.data
  · rw [if_pos h]
  · rw [if_neg h]
    exact (pwSubAux_eq_self _ (by simpa using h)).symm

mutual

theorem valStrings_maskValue (v : PyValue) :
    valStrings (maskValue v) = (valStrings v).map pwReplace := by
  cases v with
  | str s => simp [maskValue, valStrings]
  | dict d => simpa [maskValue, valStrings] using dictStrings_maskEntries d
  | list l => simpa [maskValue, valStrings] using elemStrings_maskElems l
  | none => simp [maskValue, valStrings]
  | other t => simp [maskValue, valStrings]

theorem dictStrings_maskEntries (d : List (String × PyValue)) :
    dictStrings (maskEntries d) = (dictStrings d).map pwReplace := by
  match d with
  | [] => simp [maskEntries, dictStrings]
  | (k, v) :: rest =>
    rw [maskEntries, dictStrings, dictStrings, List.map_append,
      valStrings_maskValue v, dictStrings_maskEntries rest]

theorem elemStrings_maskElems (l : List PyValue) :
    elemStrings (maskElems l) = (elemStrings l).map pwReplace := by
  match l with
  | [] => simp [maskElems, elemStrings]
  | .dict d :: rest =>
    rw [maskElems, elemStrings, elemStrings, List.map_append,
      dictStrings_maskEntries d, elemStrings_maskElems rest]
  | .str s :: rest =>
    simpa [maskElems, elemStrings] using elemStrings_maskElems rest
  | .list l' :: rest =>
    simpa [maskElems, elemStrings] using elemStrings_maskElems rest
  | .none :: rest =>
    simpa [maskElems, elemStrings] using elemStrings_maskElems rest
  | .other t :: rest =>
    simpa [maskElems, elemStrings] using elemStrings_maskElems rest

end

theorem pwReplaceMid (a v b : String) (t : Char)
    (H : ∀ i, i < a.data.length →
      pwKey.isPrefixOf (a.data.drop i ++
        ("password=" ++ v ++ String.singleton t ++ b).data) = false)
    (hv : ∀ c ∈ v.data, isPwTerm c = false) (ht : isPwTerm t = true) :
    pwReplace (a ++ ("password=" ++ v ++ String.singleton t ++ b)) =
      a ++ "password=*****" ++ String.singleton t ++ pwReplace b := by
  have hS : ("password=" ++ v ++ String.singleton t ++ b).data =
      pwKey ++ (v.data ++ t :: b.data) := by
    simp [String.data_append, pwKey, String.toList, String.singleton,
      List.append_assoc]
  have hguard :
      pwSearch ((a ++ ("password=" ++ v ++ String.singleton t ++ b)).data) =
        true := by
    rw [String.data_append, hS]
    exact pwSearch_append _ _
      (pwSearchOfKey _ (isPrefixOf_append_self _ _))
  rw [pwReplace, if_pos hguard]
  apply String.ext
  show pwSubAux ((a ++ ("password=" ++ v ++ String.singleton t ++ b)).data) = _
  simp only [hS] at H
  rw [String.data_append, hS, pwSubAux_append _ _ H, pwSubAux_key,
    pwConsume_append_no_term v.data _ hv, pwConsume_term_cons t _ ht,
    String.data_append, String.data_append, String.data_append,
    pwReplace_data]
  simp [pwMask, String.singleton, List.append_assoc]

theorem pwReplaceEnd (a v : String)
    (H : ∀ i, i < a.data.length →
      pwKey.isPrefixOf (a.data.drop i ++ ("password=" ++ v).data) = false)
    (hv : ∀ c ∈ v.data, isPwTerm c = false) :
    pwReplace (a ++ ("password=" ++ v)) = a ++ "password=*****" := by
  have hS : ("password=" ++ v).data = pwKey ++ v.data := by
    simp [String.data_append, pwKey, String.toList]
  have hguard :
      pwSearch ((a ++ ("password=" ++ v)).data) = true := by
    rw [String.data_append, hS]
    exact pwSearch_append _ _
      (pwSearchOfKey _ (isPrefixOf_append_self _ _))
  have hcons : pwConsume v.data = [] := by
    simpa [pwConsume] using pwConsume_append_no_term v.data [] hv
  rw [pwReplace, if_pos hguard]
  apply String.ext
  show pwSubAux ((a ++ ("password=" ++ v)).data) = _
  simp only [hS] at H
  rw [String.data_append, hS, pwSubAux_append _ _ H, pwSubAux_key, hcons,
    String.data_append]
  simp [pwMask]

/-- C8: `construct_message` masks credentials before persisting: every
string value of the row it builds — at any nesting depth through dicts
and dict elements of lists — is the password-masked form of the
corresponding assembled value, and the masking rewrites every substring
`password=<value>` terminated by a whitespace-or-`&` character or by the
end of the string so that the value becomes `*****`. -/
theorem claim_C8 (cfg : DBHandlerConfig) (r : LogRecord) :
    (dictStrings (construct_message cfg r).data =
        (dictStrings (buildData cfg r)).map pwReplace) ∧
      (∀ (a v b : String) (t : Char),
        (∀ i, i < a.data.length →
          pwKey.isPrefixOf (a.data.drop i ++
            ("password=" ++ v ++ String.singleton t ++ b).data) = false) →
        (∀ c ∈ v.data, isPwTerm c = false) → isPwTerm t = true →
        pwReplace (a ++ ("password=" ++ v ++ String.singleton t ++ b)) =
          a ++ "password=*****" ++ String.singleton t ++ pwReplace b) ∧
      (∀ a v : String,
        (∀ i, i < a.data.length →
          pwKey.isPrefixOf (a.data.drop i ++ ("password=" ++ v).data) =
            false) →
        (∀ c ∈ v.data, isPwTerm c = false) →
        pwReplace (a ++ ("password=" ++ v)) = a ++ "password=*****") :=
  ⟨dictStrings_maskEntries (buildData cfg r),
    fun a v b t H hv ht => pwReplaceMid a v b t H hv ht,
    fun a v H hv => pwReplaceEnd a v H hv⟩

/-- Witness for C8: a concrete record and configuration for the
structural part, and concrete strings masked through both terminator
shapes. -/
theorem claim_C8_witness :
    dictStrings (construct_message ⟨[("message", false)], [], [], []⟩
        ⟨"app", "INFO", 0, PyValue.none, PyValue.none,
          "password=hunter2"⟩).data =
      (dictStrings (buildData ⟨[("message", false)], [], [], []⟩
        ⟨"app", "INFO", 0, PyValue.none, PyValue.none,
          "password=hunter2"⟩)).map pwReplace ∧
      pwReplace "db: password=hunter2&user=bob" =
        "db: password=*****&user=bob" ∧
      pwReplace "password=abc" = "password=*****" := by
  refine ⟨(claim_C8 ⟨[("message", false)], [], [], []⟩
    ⟨"app", "INFO", 0, PyValue.none, PyValue.none, "password=hunter2"⟩).1,
    ?_, ?_⟩
  · have h := (claim_C8 ⟨[], [], [], []⟩
      ⟨"", "", 0, PyValue.none, PyValue.none, ""⟩).2.1
      "db: " "hunter2" "user=bob" '&' (by decide) (by decide) (by decide)
    have heq : ("db: password=hunter2&user=bob" : String) =
        "db: " ++ ("password=" ++ "hunter2" ++ String.singleton '&' ++
          "user=bob") := by decide
    rw [heq, h]
    decide
  · have h := (claim_C8 ⟨[], [], [], []⟩
      ⟨"", "", 0, PyValue.none, PyValue.none, ""⟩).2.2
      "" "abc" (by decide) (by decide)
    have heq : ("password=abc" : String) =
        "" ++ ("password=" ++ "abc") := by decide
    rw [heq, h]
    decide

end FastapiStructlog
